import Mathlib

/-!
Verification of the trace-of-tab computed artifact
(`lighthouse-core/gather/computed/trace-of-tab.js`).

The JavaScript source is shallowly embedded below: trace events become a
structure with the same fields (`name`, `cat`, `ts`, `dur`, `pid`, `tid`,
`args`), the stable filter-sort becomes an insertion sort over
index-tagged events using the source's `(ts, index)` comparator, and
`compute_` becomes a total function into `Except`, with the two fatal
errors (`NO_NAVSTART`, `NO_FCP`) as error values.  The external
frame-resolution collaborator `TracingProcessor.findTracingStartedEvt`
is not part of this repository; following the specification it is treated
as an opaque injected dependency, passed to `compute_` as a parameter.
-/

/-- Payload `args.data` of a trace event; may carry the document loader URL
of a navigation-start event. -/
structure TraceEventData where
  documentLoaderURL : Option String
deriving DecidableEq

/-- Payload `args` of a trace event: an optional frame id and optional data. -/
structure TraceEventArgs where
  frame : Option String
  data : Option TraceEventData
deriving DecidableEq

/-- One trace event, with the fields `trace-of-tab.js` reads: `name`, `cat`
(category list as a string), `ts` (microsecond timestamp), optional `dur`,
`pid`, `tid` and `args`. -/
structure TraceEvent where
  name : String
  cat : String
  ts : Int
  dur : Option Int
  pid : Int
  tid : Int
  args : TraceEventArgs
deriving DecidableEq

/-- The marker-indexed record used for both `timestamps` (over `Int`) and
`timings` (over `ℚ`); optional markers are `Option`-valued, mirroring
`LH.Artifacts.TraceTimes`. -/
structure TraceTimes (α : Type) where
  navigationStart : α
  firstPaint : Option α
  firstContentfulPaint : α
  firstMeaningfulPaint : Option α
  traceEnd : α
  load : Option α
  domContentLoaded : Option α
deriving DecidableEq

/-- The result bundle returned by a successful `compute_`. -/
structure TraceOfTab where
  timings : TraceTimes ℚ
  timestamps : TraceTimes Int
  processEvents : List TraceEvent
  mainThreadEvents : List TraceEvent
  startedInPageEvt : TraceEvent
  navigationStartEvt : TraceEvent
  firstPaintEvt : Option TraceEvent
  firstContentfulPaintEvt : TraceEvent
  firstMeaningfulPaintEvt : Option TraceEvent
  loadEvt : Option TraceEvent
  domContentLoadedEvt : Option TraceEvent
  fmpFellBack : Bool
deriving DecidableEq

/-- The ways `compute_` can fail: the two fatal marker errors thrown by
`trace-of-tab.js` itself, a failure of the external frame-resolution
collaborator (which throws in the source and is propagated), and the
exception JavaScript `reduce` raises on an empty array. -/
inductive ComputeError where
  | resolverFailed
  | NO_NAVSTART
  | NO_FCP
  | reduceOfEmpty
deriving DecidableEq

/-- JavaScript `String.prototype.includes`: substring containment. -/
def strIncludes (s sub : String) : Bool :=
  decide (List.IsInfix sub.toList s.toList)

/-- Structural prefix test on character lists. -/
def listIsPrefixOf : List Char → List Char → Bool
  | [], _ => true
  | _ :: _, [] => false
  | c :: cs, d :: ds => c == d && listIsPrefixOf cs ds

/-- The regular expression `ACCEPTABLE_NAVIGATION_URL_REGEX`, i.e.
whether the URL starts with `chrome:`, `http:` or `https:`. -/
def acceptableNavigationUrlTest (url : String) : Bool :=
  listIsPrefixOf "chrome:".toList url.toList || listIsPrefixOf "http:".toList url.toList ||
    listIsPrefixOf "https:".toList url.toList

/-- `TraceOfTab.isNavigationStartOfInterest`: a `navigationStart` event whose
document loader URL, when truthy (present and non-empty), matches the
acceptable-URL regular expression. -/
def isNavigationStartOfInterest (event : TraceEvent) : Bool :=
  event.name == "navigationStart" &&
    (match event.args.data with
     | none => true
     | some d =>
       match d.documentLoaderURL with
       | none => true
       | some url => url == "" || acceptableNavigationUrlTest url)

/-- The comparator used by `filteredStableSort` on index-tagged events:
sort by `ts`, and when there is no `ts` difference sort by source index. -/
def tsIdxLe (a b : Nat × TraceEvent) : Prop :=
  a.2.ts < b.2.ts ∨ (a.2.ts = b.2.ts ∧ a.1 ≤ b.1)

instance : DecidableRel tsIdxLe := fun a b => by
  unfold tsIdxLe; exact inferInstance

instance : IsTotal (Nat × TraceEvent) tsIdxLe := by
  constructor
  intro a b
  rcases lt_trichotomy a.2.ts b.2.ts with h | h | h
  · exact Or.inl (Or.inl h)
  · rcases Nat.le_total a.1 b.1 with h2 | h2
    · exact Or.inl (Or.inr ⟨h, h2⟩)
    · exact Or.inr (Or.inr ⟨h.symm, h2⟩)
  · exact Or.inr (Or.inl h)

instance : IsTrans (Nat × TraceEvent) tsIdxLe := by
  constructor
  intro a b c hab hbc
  rcases hab with hab | ⟨hab, hab2⟩
  · rcases hbc with hbc | ⟨hbc, _⟩
    · exact Or.inl (hab.trans hbc)
    · exact Or.inl (hbc ▸ hab)
  · rcases hbc with hbc | ⟨hbc, hbc2⟩
    · exact Or.inl (hab ▸ hbc)
    · exact Or.inr ⟨hab.trans hbc, hab2.trans hbc2⟩

/-- Tag each event of a list with its source index, starting at `n`. -/
def tagIdx : Nat → List TraceEvent → List (Nat × TraceEvent)
  | _, [] => []
  | n, e :: es => (n, e) :: tagIdx (n + 1) es

/-- `TraceOfTab.filteredStableSort`: keep the indices whose event satisfies
the filter, sort them by `(ts, index)`, and read the events back off in
that order. -/
def filteredStableSort (traceEvents : List TraceEvent) (filter : TraceEvent → Bool) :
    List TraceEvent :=
  (List.insertionSort tsIdxLe ((tagIdx 0 traceEvents).filter (fun ie => filter ie.2))).map
    Prod.snd

/-- The category filter producing `keyEvents` in `compute_`. -/
def keyEventsFilter (e : TraceEvent) : Bool :=
  strIncludes e.cat "blink.user_timing" || strIncludes e.cat "loading" ||
    strIncludes e.cat "devtools.timeline" || e.cat == "__metadata"

/-- The sorted key events of a trace. -/
def keyEvents (traceEvents : List TraceEvent) : List TraceEvent :=
  filteredStableSort traceEvents keyEventsFilter

/-- The key events whose `args.frame` equals the inspected frame id. -/
def frameEvents (traceEvents : List TraceEvent) (frameId : String) : List TraceEvent :=
  (keyEvents traceEvents).filter (fun e => e.args.frame == some frameId)

/-- The navigation start `compute_` selects: the last frame event of
navigation-start interest (`filter(...).pop()`). -/
def findNavStart (traceEvents : List TraceEvent) (frameId : String) : Option TraceEvent :=
  ((frameEvents traceEvents frameId).filter isNavigationStartOfInterest).getLast?

/-- The repeated search `frameEvents.find(e => e.name === nm && e.ts >
navigationStart.ts)` of `compute_`. -/
def findAfterNav (traceEvents : List TraceEvent) (frameId : String) (navTs : Int)
    (nm : String) : Option TraceEvent :=
  (frameEvents traceEvents frameId).find? (fun e => e.name == nm && decide (navTs < e.ts))

/-- The `traceEnd` reduction of `compute_`: `reduce((max, evt) => max.ts >
evt.ts ? max : evt)`, which JavaScript only defines on a non-empty array. -/
def reduceMaxTs : List TraceEvent → Option TraceEvent
  | [] => none
  | e :: rest => some (rest.foldl (fun acc evt => if acc.ts > evt.ts then acc else evt) e)

/-- The timing projection `(ts - navigationStart.ts) / 1000` of `compute_`,
with JavaScript numbers modelled as rationals. -/
def getTiming (navTs ts : Int) : ℚ :=
  ((ts : ℚ) - (navTs : ℚ)) / 1000

/-- The first-meaningful-paint selection of `compute_`: the direct
after-navigation-start search, and on its failure the fallback to the last
`firstMeaningfulPaintCandidate` frame event regardless of its position. -/
def selectFirstMeaningfulPaint (traceEvents : List TraceEvent) (frameId : String)
    (navigationStart : TraceEvent) : Option TraceEvent :=
  match findAfterNav traceEvents frameId navigationStart.ts "firstMeaningfulPaint" with
  | some e => some e
  | none =>
    ((frameEvents traceEvents frameId).filter
      (fun e => e.name == "firstMeaningfulPaintCandidate")).getLast?

/-- The successful tail of `compute_`, once the frame resolution, the
navigation start, the first contentful paint and the `traceEnd` reduction
have all succeeded: the remaining marker searches, the process/thread
scoping, and the `timestamps`/`timings` projections. -/
def buildResult (traceEvents : List TraceEvent) (startedInPageEvt : TraceEvent)
    (frameId : String) (navigationStart firstContentfulPaint traceEnd : TraceEvent) :
    TraceOfTab :=
  let firstPaint := findAfterNav traceEvents frameId navigationStart.ts "firstPaint"
  let fmpDirect := findAfterNav traceEvents frameId navigationStart.ts "firstMeaningfulPaint"
  let firstMeaningfulPaint := selectFirstMeaningfulPaint traceEvents frameId navigationStart
  let load := findAfterNav traceEvents frameId navigationStart.ts "loadEventEnd"
  let domContentLoaded :=
    findAfterNav traceEvents frameId navigationStart.ts "domContentLoadedEventEnd"
  let processEvents := filteredStableSort traceEvents (fun e => e.pid == startedInPageEvt.pid)
  let mainThreadEvents := processEvents.filter (fun e => e.tid == startedInPageEvt.tid)
  let fakeEndOfTraceTs : Int := traceEnd.ts + traceEnd.dur.getD 0
  let timestamps : TraceTimes Int :=
    { navigationStart := navigationStart.ts
      firstPaint := firstPaint.map TraceEvent.ts
      firstContentfulPaint := firstContentfulPaint.ts
      firstMeaningfulPaint := firstMeaningfulPaint.map TraceEvent.ts
      traceEnd := fakeEndOfTraceTs
      load := load.map TraceEvent.ts
      domContentLoaded := domContentLoaded.map TraceEvent.ts }
  let timings : TraceTimes ℚ :=
    { navigationStart := 0
      firstPaint := timestamps.firstPaint.map (getTiming navigationStart.ts)
      firstContentfulPaint := getTiming navigationStart.ts timestamps.firstContentfulPaint
      firstMeaningfulPaint := timestamps.firstMeaningfulPaint.map (getTiming navigationStart.ts)
      traceEnd := getTiming navigationStart.ts timestamps.traceEnd
      load := timestamps.load.map (getTiming navigationStart.ts)
      domContentLoaded := timestamps.domContentLoaded.map (getTiming navigationStart.ts) }
  { timings := timings
    timestamps := timestamps
    processEvents := processEvents
    mainThreadEvents := mainThreadEvents
    startedInPageEvt := startedInPageEvt
    navigationStartEvt := navigationStart
    firstPaintEvt := firstPaint
    firstContentfulPaintEvt := firstContentfulPaint
    firstMeaningfulPaintEvt := firstMeaningfulPaint
    loadEvt := load
    domContentLoadedEvt := domContentLoaded
    fmpFellBack := fmpDirect.isNone }

/-- `TraceOfTab.compute_`.  The first argument is the external
frame-resolution collaborator (`TracingProcessor.findTracingStartedEvt`),
whose source lives outside this repository; per the specification it is an
opaque injected dependency whose failure is propagated. -/
def compute_ (findTracingStartedEvt : List TraceEvent → Option (TraceEvent × String))
    (traceEvents : List TraceEvent) : Except ComputeError TraceOfTab :=
  match findTracingStartedEvt (keyEvents traceEvents) with
  | none => Except.error ComputeError.resolverFailed
  | some (startedInPageEvt, frameId) =>
    match findNavStart traceEvents frameId with
    | none => Except.error ComputeError.NO_NAVSTART
    | some navigationStart =>
      match findAfterNav traceEvents frameId navigationStart.ts "firstContentfulPaint" with
      | none => Except.error ComputeError.NO_FCP
      | some firstContentfulPaint =>
        match reduceMaxTs traceEvents with
        | none => Except.error ComputeError.reduceOfEmpty
        | some traceEnd =>
          Except.ok
            (buildResult traceEvents startedInPageEvt frameId navigationStart
              firstContentfulPaint traceEnd)

/-! ### Lemmas about `tagIdx` and `filteredStableSort` -/

theorem tagIdx_map_snd (n : Nat) (l : List TraceEvent) :
    (tagIdx n l).map Prod.snd = l := by
  induction l generalizing n with
  | nil => rfl
  | cons e es ih => simp [tagIdx, ih]

theorem le_fst_of_mem_tagIdx {n : Nat} {l : List TraceEvent} {x : Nat × TraceEvent}
    (hx : x ∈ tagIdx n l) : n ≤ x.1 := by
  induction l generalizing n with
  | nil => simp [tagIdx] at hx
  | cons e es ih =>
    rcases (by simpa [tagIdx] using hx : x = (n, e) ∨ x ∈ tagIdx (n + 1) es) with h | h
    · simp [h]
    · exact Nat.le_of_succ_le (ih h)

theorem tagIdx_pairwise_fst (n : Nat) (l : List TraceEvent) :
    (tagIdx n l).Pairwise (fun a b => a.1 < b.1) := by
  induction l generalizing n with
  | nil => exact List.Pairwise.nil
  | cons e es ih =>
    refine List.Pairwise.cons (fun b hb => ?_) (ih (n + 1))
    exact Nat.lt_of_succ_le (le_fst_of_mem_tagIdx hb)

theorem tagIdx_filter_map_snd (p : TraceEvent → Bool) (n : Nat) (l : List TraceEvent) :
    (((tagIdx n l).filter (fun ie => p ie.2)).map Prod.snd) = l.filter p := by
  induction l generalizing n with
  | nil => rfl
  | cons e es ih =>
    by_cases hp : p e <;> simp [tagIdx, List.filter, hp, ih]

theorem tsIdxLe_ts_le {a b : Nat × TraceEvent} (h : tsIdxLe a b) : a.2.ts ≤ b.2.ts := by
  rcases h with h | ⟨h, _⟩
  · exact le_of_lt h
  · exact le_of_eq h

theorem filteredStableSort_perm (l : List TraceEvent) (p : TraceEvent → Bool) :
    (filteredStableSort l p).Perm (l.filter p) := by
  unfold filteredStableSort
  have h := (List.perm_insertionSort tsIdxLe
    ((tagIdx 0 l).filter (fun ie => p ie.2))).map Prod.snd
  rwa [tagIdx_filter_map_snd] at h

theorem filteredStableSort_sorted (l : List TraceEvent) (p : TraceEvent → Bool) :
    (filteredStableSort l p).Pairwise (fun a b => a.ts ≤ b.ts) := by
  unfold filteredStableSort
  exact List.Pairwise.map Prod.snd (fun a b h => tsIdxLe_ts_le h)
    (List.sorted_insertionSort tsIdxLe _)

theorem filteredStableSort_stable (l : List TraceEvent) (p : TraceEvent → Bool) (t : Int) :
    (filteredStableSort l p).filter (fun e => decide (e.ts = t)) =
      (l.filter p).filter (fun e => decide (e.ts = t)) := by
  have key :
      (List.insertionSort tsIdxLe ((tagIdx 0 l).filter (fun ie => p ie.2))).filter
          (fun ie => decide (ie.2.ts = t)) =
        ((tagIdx 0 l).filter (fun ie => p ie.2)).filter (fun ie => decide (ie.2.ts = t)) := by
    haveI : IsAntisymm (Nat × TraceEvent) (fun a b => a.1 < b.1) :=
      ⟨fun a b h h2 => absurd h2 (Nat.lt_asymm h)⟩
    have hperm :
        ((List.insertionSort tsIdxLe ((tagIdx 0 l).filter (fun ie => p ie.2))).filter
            (fun ie => decide (ie.2.ts = t))).Perm
          (((tagIdx 0 l).filter (fun ie => p ie.2)).filter (fun ie => decide (ie.2.ts = t))) :=
      (List.perm_insertionSort tsIdxLe _).filter _
    have hne : (List.insertionSort tsIdxLe
        ((tagIdx 0 l).filter (fun ie => p ie.2))).Pairwise (fun a b => a.1 ≠ b.1) := by
      have h1 : ((tagIdx 0 l).filter (fun ie => p ie.2)).Pairwise (fun a b => a.1 ≠ b.1) :=
        List.Pairwise.sublist (List.filter_sublist _)
          ((tagIdx_pairwise_fst 0 l).imp (fun h => Nat.ne_of_lt h))
      exact ((List.perm_insertionSort tsIdxLe _).pairwise_iff
        (by intro x y h; exact Ne.symm h)).2 h1
    have hsorted1 : ((List.insertionSort tsIdxLe
        ((tagIdx 0 l).filter (fun ie => p ie.2))).filter
          (fun ie => decide (ie.2.ts = t))).Pairwise (fun a b => a.1 < b.1) := by
      have hp1 : ((List.insertionSort tsIdxLe ((tagIdx 0 l).filter (fun ie => p ie.2))).filter
          (fun ie => decide (ie.2.ts = t))).Pairwise (fun a b => tsIdxLe a b ∧ a.1 ≠ b.1) :=
        List.Pairwise.sublist (List.filter_sublist _)
          ((List.sorted_insertionSort tsIdxLe _).and hne)
      refine hp1.imp_of_mem (fun {a b} ha hb hab => ?_)
      have ha2 : a.2.ts = t := by simpa using (List.mem_filter.1 ha).2
      have hb2 : b.2.ts = t := by simpa using (List.mem_filter.1 hb).2
      rcases hab.1 with h | ⟨_, hle⟩
      · rw [ha2, hb2] at h; exact absurd h (lt_irrefl t)
      · exact lt_of_le_of_ne hle hab.2
    have hsorted2 : (((tagIdx 0 l).filter (fun ie => p ie.2)).filter
        (fun ie => decide (ie.2.ts = t))).Pairwise (fun a b => a.1 < b.1) :=
      List.Pairwise.sublist ((List.filter_sublist _).trans (List.filter_sublist _))
        (tagIdx_pairwise_fst 0 l)
    exact List.eq_of_perm_of_sorted hperm hsorted1 hsorted2
  unfold filteredStableSort
  rw [List.filter_map, ← tagIdx_filter_map_snd p 0 l, List.filter_map]
  exact congrArg (List.map Prod.snd) key

/-! ### Inversion lemmas for `compute_` -/

theorem compute_ok_iff (resolve : List TraceEvent → Option (TraceEvent × String))
    (trace : List TraceEvent) (r : TraceOfTab) :
    compute_ resolve trace = Except.ok r ↔
      ∃ se fid nav fcp te,
        resolve (keyEvents trace) = some (se, fid) ∧
        findNavStart trace fid = some nav ∧
        findAfterNav trace fid nav.ts "firstContentfulPaint" = some fcp ∧
        reduceMaxTs trace = some te ∧
        r = buildResult trace se fid nav fcp te := by
  constructor
  · intro h
    unfold compute_ at h
    split at h
    · simp at h
    next se fid hres =>
      split at h
      · simp at h
      next nav hnav =>
        split at h
        · simp at h
        next fcp hfcp =>
          split at h
          · simp at h
          next te hte =>
            exact ⟨se, fid, nav, fcp, te, hres, hnav, hfcp, hte, (Except.ok.inj h).symm⟩
  · rintro ⟨se, fid, nav, fcp, te, hres, hnav, hfcp, hte, rfl⟩
    unfold compute_
    rw [hres]
    dsimp only
    rw [hnav]
    dsimp only
    rw [hfcp]
    dsimp only
    rw [hte]

theorem compute_navstart_error_iff (resolve : List TraceEvent → Option (TraceEvent × String))
    (trace : List TraceEvent) (se : TraceEvent) (fid : String)
    (hres : resolve (keyEvents trace) = some (se, fid)) :
    compute_ resolve trace = Except.error ComputeError.NO_NAVSTART ↔
      findNavStart trace fid = none := by
  constructor
  · intro h
    unfold compute_ at h
    rw [hres] at h
    dsimp only at h
    split at h
    · assumption
    next nav hnav =>
      split at h
      · simp at h
      next fcp hfcp =>
        split at h <;> simp at h
  · intro h
    unfold compute_
    rw [hres]
    dsimp only
    rw [h]

theorem compute_fcp_error_iff (resolve : List TraceEvent → Option (TraceEvent × String))
    (trace : List TraceEvent) (se : TraceEvent) (fid : String)
    (hres : resolve (keyEvents trace) = some (se, fid)) :
    compute_ resolve trace = Except.error ComputeError.NO_FCP ↔
      ∃ nav, findNavStart trace fid = some nav ∧
        findAfterNav trace fid nav.ts "firstContentfulPaint" = none := by
  constructor
  · intro h
    unfold compute_ at h
    rw [hres] at h
    dsimp only at h
    split at h
    · simp at h
    next nav hnav =>
      split at h
      next hfcp => exact ⟨nav, hnav, hfcp⟩
      next fcp hfcp =>
        split at h <;> simp at h
  · rintro ⟨nav, hnav, hfcp⟩
    unfold compute_
    rw [hres]
    dsimp only
    rw [hnav]
    dsimp only
    rw [hfcp]

theorem findNavStart_nil (fid : String) : findNavStart [] fid = none := rfl

theorem trace_ne_nil_of_findNavStart {trace : List TraceEvent} {fid : String}
    {nav : TraceEvent} (h : findNavStart trace fid = some nav) : trace ≠ [] := by
  intro heq
  subst heq
  rw [findNavStart_nil] at h
  exact Option.noConfusion h

theorem reduceMaxTs_isSome_of_ne_nil {trace : List TraceEvent} (h : trace ≠ []) :
    (reduceMaxTs trace).isSome = true := by
  cases trace with
  | nil => exact absurd rfl h
  | cons a rest => rfl

theorem compute_trichotomy (resolve : List TraceEvent → Option (TraceEvent × String))
    (trace : List TraceEvent) (se : TraceEvent) (fid : String)
    (hres : resolve (keyEvents trace) = some (se, fid)) :
    (∃ r, compute_ resolve trace = Except.ok r) ∨
      compute_ resolve trace = Except.error ComputeError.NO_NAVSTART ∨
      compute_ resolve trace = Except.error ComputeError.NO_FCP := by
  unfold compute_
  rw [hres]
  dsimp only
  cases hnav : findNavStart trace fid with
  | none => exact Or.inr (Or.inl rfl)
  | some nav =>
    dsimp only
    cases hfcp : findAfterNav trace fid nav.ts "firstContentfulPaint" with
    | none => exact Or.inr (Or.inr rfl)
    | some fcp =>
      dsimp only
      obtain ⟨te, hte⟩ := Option.isSome_iff_exists.1
        (reduceMaxTs_isSome_of_ne_nil (trace_ne_nil_of_findNavStart hnav))
      rw [hte]
      exact Or.inl ⟨_, rfl⟩

/-! ### The `traceEnd` reduction computes a maximal-timestamp event -/

theorem foldl_maxTs_spec (l : List TraceEvent) (a : TraceEvent) :
    (l.foldl (fun acc evt => if acc.ts > evt.ts then acc else evt) a) ∈ a :: l ∧
      ∀ e ∈ a :: l,
        e.ts ≤ (l.foldl (fun acc evt => if acc.ts > evt.ts then acc else evt) a).ts := by
  induction l generalizing a with
  | nil =>
    refine ⟨by simp [List.foldl], ?_⟩
    intro e he
    rw [List.mem_singleton] at he
    subst he
    exact le_refl _
  | cons b l ih =>
    simp only [List.foldl]
    obtain ⟨hmem, hle⟩ := ih (if a.ts > b.ts then a else b)
    have hsub : (if a.ts > b.ts then a else b) ∈ a :: b :: l := by
      by_cases h : a.ts > b.ts <;> simp [h]
    have hts : a.ts ≤ (if a.ts > b.ts then a else b).ts ∧
        b.ts ≤ (if a.ts > b.ts then a else b).ts := by
      by_cases h : a.ts > b.ts
      · simp only [if_pos h]
        exact ⟨le_refl _, le_of_lt h⟩
      · simp only [if_neg h]
        exact ⟨le_of_not_lt h, le_refl _⟩
    constructor
    · rcases List.mem_cons.1 hmem with h | h
      · rw [h]
        exact hsub
      · exact List.mem_cons_of_mem _ (List.mem_cons_of_mem _ h)
    · intro e he
      rcases List.mem_cons.1 he with rfl | he2
      · exact le_trans hts.1 (hle _ (List.mem_cons_self _ _))
      rcases List.mem_cons.1 he2 with rfl | he3
      · exact le_trans hts.2 (hle _ (List.mem_cons_self _ _))
      · exact hle _ (List.mem_cons_of_mem _ he3)

theorem reduceMaxTs_spec {trace : List TraceEvent} {te : TraceEvent}
    (h : reduceMaxTs trace = some te) : te ∈ trace ∧ ∀ e ∈ trace, e.ts ≤ te.ts := by
  cases trace with
  | nil => exact Option.noConfusion h
  | cons a rest =>
    obtain rfl := Option.some.inj h
    exact foldl_maxTs_spec rest a

/-! ### Projection lemmas for `buildResult` -/

theorem buildResult_startedInPageEvt (trace : List TraceEvent) (se : TraceEvent) (fid : String)
    (nav fcp te : TraceEvent) :
    (buildResult trace se fid nav fcp te).startedInPageEvt = se := rfl

theorem buildResult_navigationStartEvt (trace : List TraceEvent) (se : TraceEvent) (fid : String)
    (nav fcp te : TraceEvent) :
    (buildResult trace se fid nav fcp te).navigationStartEvt = nav := rfl

theorem buildResult_firstContentfulPaintEvt (trace : List TraceEvent) (se : TraceEvent)
    (fid : String) (nav fcp te : TraceEvent) :
    (buildResult trace se fid nav fcp te).firstContentfulPaintEvt = fcp := rfl

theorem buildResult_firstMeaningfulPaintEvt (trace : List TraceEvent) (se : TraceEvent)
    (fid : String) (nav fcp te : TraceEvent) :
    (buildResult trace se fid nav fcp te).firstMeaningfulPaintEvt =
      selectFirstMeaningfulPaint trace fid nav := rfl

theorem buildResult_fmpFellBack (trace : List TraceEvent) (se : TraceEvent) (fid : String)
    (nav fcp te : TraceEvent) :
    (buildResult trace se fid nav fcp te).fmpFellBack =
      (findAfterNav trace fid nav.ts "firstMeaningfulPaint").isNone := rfl

theorem buildResult_processEvents (trace : List TraceEvent) (se : TraceEvent) (fid : String)
    (nav fcp te : TraceEvent) :
    (buildResult trace se fid nav fcp te).processEvents =
      filteredStableSort trace (fun e => e.pid == se.pid) := rfl

theorem buildResult_mainThreadEvents (trace : List TraceEvent) (se : TraceEvent) (fid : String)
    (nav fcp te : TraceEvent) :
    (buildResult trace se fid nav fcp te).mainThreadEvents =
      (filteredStableSort trace (fun e => e.pid == se.pid)).filter
        (fun e => e.tid == se.tid) := rfl

theorem buildResult_timestamps_navigationStart (trace : List TraceEvent) (se : TraceEvent)
    (fid : String) (nav fcp te : TraceEvent) :
    (buildResult trace se fid nav fcp te).timestamps.navigationStart = nav.ts := rfl

theorem buildResult_timestamps_firstContentfulPaint (trace : List TraceEvent) (se : TraceEvent)
    (fid : String) (nav fcp te : TraceEvent) :
    (buildResult trace se fid nav fcp te).timestamps.firstContentfulPaint = fcp.ts := rfl

theorem buildResult_timestamps_firstPaint (trace : List TraceEvent) (se : TraceEvent)
    (fid : String) (nav fcp te : TraceEvent) :
    (buildResult trace se fid nav fcp te).timestamps.firstPaint =
      (findAfterNav trace fid nav.ts "firstPaint").map TraceEvent.ts := rfl

theorem buildResult_timestamps_firstMeaningfulPaint (trace : List TraceEvent) (se : TraceEvent)
    (fid : String) (nav fcp te : TraceEvent) :
    (buildResult trace se fid nav fcp te).timestamps.firstMeaningfulPaint =
      (selectFirstMeaningfulPaint trace fid nav).map TraceEvent.ts := rfl

theorem buildResult_timestamps_load (trace : List TraceEvent) (se : TraceEvent)
    (fid : String) (nav fcp te : TraceEvent) :
    (buildResult trace se fid nav fcp te).timestamps.load =
      (findAfterNav trace fid nav.ts "loadEventEnd").map TraceEvent.ts := rfl

theorem buildResult_timestamps_domContentLoaded (trace : List TraceEvent) (se : TraceEvent)
    (fid : String) (nav fcp te : TraceEvent) :
    (buildResult trace se fid nav fcp te).timestamps.domContentLoaded =
      (findAfterNav trace fid nav.ts "domContentLoadedEventEnd").map TraceEvent.ts := rfl

theorem buildResult_timestamps_traceEnd (trace : List TraceEvent) (se : TraceEvent)
    (fid : String) (nav fcp te : TraceEvent) :
    (buildResult trace se fid nav fcp te).timestamps.traceEnd =
      te.ts + te.dur.getD 0 := rfl

theorem buildResult_timings_navigationStart (trace : List TraceEvent) (se : TraceEvent)
    (fid : String) (nav fcp te : TraceEvent) :
    (buildResult trace se fid nav fcp te).timings.navigationStart = 0 := rfl

theorem buildResult_timings_firstContentfulPaint (trace : List TraceEvent) (se : TraceEvent)
    (fid : String) (nav fcp te : TraceEvent) :
    (buildResult trace se fid nav fcp te).timings.firstContentfulPaint =
      getTiming nav.ts fcp.ts := rfl

theorem buildResult_timings_firstPaint (trace : List TraceEvent) (se : TraceEvent)
    (fid : String) (nav fcp te : TraceEvent) :
    (buildResult trace se fid nav fcp te).timings.firstPaint =
      ((findAfterNav trace fid nav.ts "firstPaint").map TraceEvent.ts).map
        (getTiming nav.ts) := rfl

theorem buildResult_timings_firstMeaningfulPaint (trace : List TraceEvent) (se : TraceEvent)
    (fid : String) (nav fcp te : TraceEvent) :
    (buildResult trace se fid nav fcp te).timings.firstMeaningfulPaint =
      ((selectFirstMeaningfulPaint trace fid nav).map TraceEvent.ts).map
        (getTiming nav.ts) := rfl

theorem buildResult_timings_load (trace : List TraceEvent) (se : TraceEvent)
    (fid : String) (nav fcp te : TraceEvent) :
    (buildResult trace se fid nav fcp te).timings.load =
      ((findAfterNav trace fid nav.ts "loadEventEnd").map TraceEvent.ts).map
        (getTiming nav.ts) := rfl

theorem buildResult_timings_domContentLoaded (trace : List TraceEvent) (se : TraceEvent)
    (fid : String) (nav fcp te : TraceEvent) :
    (buildResult trace se fid nav fcp te).timings.domContentLoaded =
      ((findAfterNav trace fid nav.ts "domContentLoadedEventEnd").map TraceEvent.ts).map
        (getTiming nav.ts) := rfl

theorem buildResult_timings_traceEnd (trace : List TraceEvent) (se : TraceEvent)
    (fid : String) (nav fcp te : TraceEvent) :
    (buildResult trace se fid nav fcp te).timings.traceEnd =
      getTiming nav.ts (te.ts + te.dur.getD 0) := rfl

/-! ### Claim theorems -/

/-- C7: for every event sequence and boolean predicate, `filteredStableSort`
returns a sequence containing exactly the events satisfying the predicate
(as a permutation of the straight filter, so no more and no less), ordered
by ascending timestamp, and any two retained events with equal timestamps
appear in the same relative order as in the input sequence (restricting the
output to any fixed timestamp yields exactly the filtered input restricted
to that timestamp, in input order). -/
theorem c7_filteredStableSort_correct (l : List TraceEvent) (p : TraceEvent → Bool) :
    (filteredStableSort l p).Perm (l.filter p) ∧
      (filteredStableSort l p).Pairwise (fun a b => a.ts ≤ b.ts) ∧
      ∀ t : Int,
        (filteredStableSort l p).filter (fun e => decide (e.ts = t)) =
          (l.filter p).filter (fun e => decide (e.ts = t)) :=
  ⟨filteredStableSort_perm l p, filteredStableSort_sorted l p,
    fun t => filteredStableSort_stable l p t⟩

theorem compute_ne_reduceOfEmpty (resolve : List TraceEvent → Option (TraceEvent × String))
    (trace : List TraceEvent) :
    compute_ resolve trace ≠ Except.error ComputeError.reduceOfEmpty := by
  intro h
  unfold compute_ at h
  split at h
  · simp at h
  next se fid hres =>
    split at h
    · simp at h
    next nav hnav =>
      split at h
      · simp at h
      next fcp hfcp =>
        split at h
        next hte =>
          have hs := reduceMaxTs_isSome_of_ne_nil (trace_ne_nil_of_findNavStart hnav)
          rw [hte] at hs
          simp at hs
        next te hte => simp at h

/-- C9: whenever the navigation-start search succeeds, the trace event list
is non-empty, so the `traceEnd` reduction is well defined; consequently
`compute_` can never fail with the empty-reduction error, whatever the
frame resolver does. -/
theorem c9_traceEnd_reduction_safe (trace : List TraceEvent) (fid : String)
    (nav : TraceEvent) (h : findNavStart trace fid = some nav) :
    trace ≠ [] ∧ (reduceMaxTs trace).isSome = true ∧
      ∀ resolve, compute_ resolve trace ≠ Except.error ComputeError.reduceOfEmpty := by
  have hne := trace_ne_nil_of_findNavStart h
  exact ⟨hne, reduceMaxTs_isSome_of_ne_nil hne,
    fun resolve => compute_ne_reduceOfEmpty resolve trace⟩

/-- C8: in every successful result, `processEvents` consists of exactly the
events of the entire unfiltered trace whose `pid` equals the start event's
(a permutation of that filter), `mainThreadEvents` is the sub-filter of
`processEvents` by the start event's `tid` (hence a subset), and every
event of `processEvents` carries the tracked `pid`. -/
theorem c8_process_scoping (resolve : List TraceEvent → Option (TraceEvent × String))
    (trace : List TraceEvent) (r : TraceOfTab) (h : compute_ resolve trace = Except.ok r) :
    r.processEvents.Perm (trace.filter (fun e => e.pid == r.startedInPageEvt.pid)) ∧
      r.mainThreadEvents = r.processEvents.filter (fun e => e.tid == r.startedInPageEvt.tid) ∧
      (∀ e ∈ r.mainThreadEvents, e ∈ r.processEvents) ∧
      (∀ e ∈ r.processEvents, e.pid = r.startedInPageEvt.pid) := by
  obtain ⟨se, fid, nav, fcp, te, hres, hnav, hfcp, hte, rfl⟩ := (compute_ok_iff _ _ _).1 h
  rw [buildResult_processEvents, buildResult_mainThreadEvents, buildResult_startedInPageEvt]
  refine ⟨filteredStableSort_perm _ _, rfl, fun e he => (List.mem_filter.1 he).1, fun e he => ?_⟩
  have : e ∈ trace.filter (fun e => e.pid == se.pid) :=
    (filteredStableSort_perm _ _).mem_iff.1 he
  exact eq_of_beq (List.mem_filter.1 this).2

/-- C10: in every successful result, `mainThreadEvents` is itself in
ascending-timestamp order, and its events of any fixed timestamp are
exactly the input trace's events with that `pid`, `tid` and timestamp, in
input order — i.e. equal-timestamp events keep their original relative
order from the input trace. -/
theorem c10_mainThreadEvents_sorted_stable
    (resolve : List TraceEvent → Option (TraceEvent × String))
    (trace : List TraceEvent) (r : TraceOfTab) (h : compute_ resolve trace = Except.ok r) :
    r.mainThreadEvents.Pairwise (fun a b => a.ts ≤ b.ts) ∧
      ∀ t : Int,
        r.mainThreadEvents.filter (fun e => decide (e.ts = t)) =
          ((trace.filter (fun e => e.pid == r.startedInPageEvt.pid)).filter
            (fun e => e.tid == r.startedInPageEvt.tid)).filter
              (fun e => decide (e.ts = t)) := by
  obtain ⟨se, fid, nav, fcp, te, hres, hnav, hfcp, hte, rfl⟩ := (compute_ok_iff _ _ _).1 h
  rw [buildResult_mainThreadEvents, buildResult_startedInPageEvt]
  constructor
  · exact List.Pairwise.sublist (List.filter_sublist _) (filteredStableSort_sorted _ _)
  · intro t
    calc ((filteredStableSort trace (fun e => e.pid == se.pid)).filter
            (fun e => e.tid == se.tid)).filter (fun e => decide (e.ts = t))
        = ((filteredStableSort trace (fun e => e.pid == se.pid)).filter
            (fun e => decide (e.ts = t))).filter (fun e => e.tid == se.tid) :=
          List.filter_comm _ _ _
      _ = ((trace.filter (fun e => e.pid == se.pid)).filter
            (fun e => decide (e.ts = t))).filter (fun e => e.tid == se.tid) := by
          rw [filteredStableSort_stable]
      _ = ((trace.filter (fun e => e.pid == se.pid)).filter
            (fun e => e.tid == se.tid)).filter (fun e => decide (e.ts = t)) :=
          List.filter_comm _ _ _

/-- C2 (amended): in every successful result, `timestamps.traceEnd` equals
`te.ts + (te.dur or 0)` where `te` is the event the max-by-timestamp
reduction selects — an event of the trace whose timestamp is maximal.  It
is not in general the maximum of `ts + dur` over all events, since only
the maximal-timestamp event's own duration is added. -/
theorem c2_traceEnd_amended (resolve : List TraceEvent → Option (TraceEvent × String))
    (trace : List TraceEvent) (r : TraceOfTab) (h : compute_ resolve trace = Except.ok r) :
    ∃ te, reduceMaxTs trace = some te ∧ te ∈ trace ∧ (∀ e ∈ trace, e.ts ≤ te.ts) ∧
      r.timestamps.traceEnd = te.ts + te.dur.getD 0 := by
  obtain ⟨se, fid, nav, fcp, te, hres, hnav, hfcp, hte, rfl⟩ := (compute_ok_iff _ _ _).1 h
  obtain ⟨hmem, hbound⟩ := reduceMaxTs_spec hte
  exact ⟨te, hte, hmem, hbound, buildResult_timestamps_traceEnd _ _ _ _ _ _⟩

theorem getTiming_eq (navTs ts : Int) :
    getTiming navTs ts = ((ts - navTs : Int) : ℚ) / 1000 := by
  unfold getTiming
  push_cast
  ring

theorem getTiming_pos (navTs ts : Int) (h : navTs < ts) : 0 < getTiming navTs ts := by
  unfold getTiming
  apply div_pos
  · have : (navTs : ℚ) < (ts : ℚ) := by exact_mod_cast h
    linarith
  · norm_num

theorem option_map_getTiming (o : Option Int) (navTs : Int) :
    o.map (getTiming navTs) = o.map (fun ts => ((ts - navTs : Int) : ℚ) / 1000) := by
  cases o with
  | none => rfl
  | some x => simp [getTiming_eq]

/-- C6: in every successful result, `timings.navigationStart` is exactly `0`,
every present marker's timing is its timestamp minus the navigation-start
timestamp divided by `1000`, and markers absent in `timestamps` are also
absent in `timings` (the `Option.map` form maps `none` to `none`). -/
theorem c6_timing_projection (resolve : List TraceEvent → Option (TraceEvent × String))
    (trace : List TraceEvent) (r : TraceOfTab) (h : compute_ resolve trace = Except.ok r) :
    r.timings.navigationStart = 0 ∧
      r.timings.firstContentfulPaint =
        ((r.timestamps.firstContentfulPaint - r.timestamps.navigationStart : Int) : ℚ) / 1000 ∧
      r.timings.firstPaint = r.timestamps.firstPaint.map
        (fun ts => ((ts - r.timestamps.navigationStart : Int) : ℚ) / 1000) ∧
      r.timings.firstMeaningfulPaint = r.timestamps.firstMeaningfulPaint.map
        (fun ts => ((ts - r.timestamps.navigationStart : Int) : ℚ) / 1000) ∧
      r.timings.load = r.timestamps.load.map
        (fun ts => ((ts - r.timestamps.navigationStart : Int) : ℚ) / 1000) ∧
      r.timings.domContentLoaded = r.timestamps.domContentLoaded.map
        (fun ts => ((ts - r.timestamps.navigationStart : Int) : ℚ) / 1000) ∧
      r.timings.traceEnd =
        ((r.timestamps.traceEnd - r.timestamps.navigationStart : Int) : ℚ) / 1000 := by
  obtain ⟨se, fid, nav, fcp, te, hres, hnav, hfcp, hte, rfl⟩ := (compute_ok_iff _ _ _).1 h
  rw [buildResult_timings_navigationStart, buildResult_timings_firstContentfulPaint,
    buildResult_timings_firstPaint, buildResult_timings_firstMeaningfulPaint,
    buildResult_timings_load, buildResult_timings_domContentLoaded,
    buildResult_timings_traceEnd, buildResult_timestamps_navigationStart,
    buildResult_timestamps_firstContentfulPaint, buildResult_timestamps_firstPaint,
    buildResult_timestamps_firstMeaningfulPaint, buildResult_timestamps_load,
    buildResult_timestamps_domContentLoaded, buildResult_timestamps_traceEnd]
  exact ⟨rfl, getTiming_eq nav.ts fcp.ts, option_map_getTiming _ nav.ts,
    option_map_getTiming _ nav.ts, option_map_getTiming _ nav.ts,
    option_map_getTiming _ nav.ts, getTiming_eq nav.ts _⟩

/-- C1 (amended): in every successful result `timings.navigationStart = 0`
and `timings.firstContentfulPaint` is strictly positive, and when the
first-meaningful-paint marker was found directly (`fmpFellBack = false`)
its timing is strictly positive as well — both searches demand a timestamp
strictly after navigation start.  The code does not guarantee
`timings.firstContentfulPaint ≤ timings.firstMeaningfulPaint`, neither on
the fallback path nor on the direct path. -/
theorem c1_markers_after_navStart (resolve : List TraceEvent → Option (TraceEvent × String))
    (trace : List TraceEvent) (r : TraceOfTab) (h : compute_ resolve trace = Except.ok r) :
    r.timings.navigationStart = 0 ∧
      0 < r.timings.firstContentfulPaint ∧
      (r.fmpFellBack = false →
        ∀ q, r.timings.firstMeaningfulPaint = some q → 0 < q) := by
  obtain ⟨se, fid, nav, fcp, te, hres, hnav, hfcp, hte, rfl⟩ := (compute_ok_iff _ _ _).1 h
  refine ⟨buildResult_timings_navigationStart _ _ _ _ _ _, ?_, ?_⟩
  · rw [buildResult_timings_firstContentfulPaint]
    unfold findAfterNav at hfcp
    have hp := List.find?_some hfcp
    simp only [Bool.and_eq_true, beq_iff_eq, decide_eq_true_eq] at hp
    exact getTiming_pos nav.ts fcp.ts hp.2
  · intro hfb q hq
    rw [buildResult_fmpFellBack] at hfb
    rw [buildResult_timings_firstMeaningfulPaint] at hq
    cases hfd : findAfterNav trace fid nav.ts "firstMeaningfulPaint" with
    | none => rw [hfd] at hfb; simp at hfb
    | some e =>
      have hsel : selectFirstMeaningfulPaint trace fid nav = some e := by
        unfold selectFirstMeaningfulPaint
        rw [hfd]
      rw [hsel] at hq
      simp only [Option.map_some'] at hq
      obtain rfl := Option.some.inj hq
      unfold findAfterNav at hfd
      have hp := List.find?_some hfd
      simp only [Bool.and_eq_true, beq_iff_eq, decide_eq_true_eq] at hp
      exact getTiming_pos nav.ts e.ts hp.2

/-- C5: in every successful result, when no `firstMeaningfulPaint` frame
event strictly after navigation start exists, `fmpFellBack` is `true` and
the first-meaningful-paint marker is the last `firstMeaningfulPaintCandidate`
frame event regardless of its position relative to navigation start (absent
when no candidate exists, with no fatal error since the result is `ok`);
when the direct search succeeds, `fmpFellBack` is `false` and the marker is
the found event. -/
theorem c5_fmp_fallback (resolve : List TraceEvent → Option (TraceEvent × String))
    (trace : List TraceEvent) (r : TraceOfTab) (se : TraceEvent) (fid : String)
    (h : compute_ resolve trace = Except.ok r)
    (hres : resolve (keyEvents trace) = some (se, fid)) :
    (findAfterNav trace fid r.navigationStartEvt.ts "firstMeaningfulPaint" = none →
        r.fmpFellBack = true ∧
        r.firstMeaningfulPaintEvt =
          ((frameEvents trace fid).filter
            (fun e => e.name == "firstMeaningfulPaintCandidate")).getLast?) ∧
      (∀ e, findAfterNav trace fid r.navigationStartEvt.ts "firstMeaningfulPaint" = some e →
        r.fmpFellBack = false ∧ r.firstMeaningfulPaintEvt = some e) := by
  obtain ⟨se2, fid2, nav, fcp, te, hres2, hnav, hfcp, hte, rfl⟩ := (compute_ok_iff _ _ _).1 h
  rw [hres] at hres2
  simp only [Option.some.injEq, Prod.mk.injEq] at hres2
  obtain ⟨rfl, rfl⟩ := hres2
  rw [buildResult_navigationStartEvt, buildResult_fmpFellBack,
    buildResult_firstMeaningfulPaintEvt]
  constructor
  · intro hnone
    refine ⟨by rw [hnone]; rfl, ?_⟩
    unfold selectFirstMeaningfulPaint
    rw [hnone]
  · intro e he
    refine ⟨by rw [he]; rfl, ?_⟩
    unfold selectFirstMeaningfulPaint
    rw [he]

/-- The claim's notion of the URL associated with a navigation-start event:
present exactly when `args.data.documentLoaderURL` is a truthy (non-empty)
string, matching the JavaScript falsiness test in the source. -/
def navStartDocURL (e : TraceEvent) : Option String :=
  match e.args.data with
  | none => none
  | some d =>
    match d.documentLoaderURL with
    | none => none
    | some url => if url = "" then none else some url

theorem isNavigationStartOfInterest_iff (e : TraceEvent) :
    isNavigationStartOfInterest e = true ↔
      (e.name = "navigationStart" ∧
        ∀ url, navStartDocURL e = some url → acceptableNavigationUrlTest url = true) := by
  unfold isNavigationStartOfInterest navStartDocURL
  cases hd : e.args.data with
  | none => simp
  | some d =>
    dsimp only
    cases hu : d.documentLoaderURL with
    | none => simp
    | some url =>
      dsimp only
      by_cases hemp : url = ""
      · subst hemp
        simp
      · simp [hemp]

theorem getLast?_filter_split {p : TraceEvent → Bool} {l : List TraceEvent} {a : TraceEvent}
    (h : (l.filter p).getLast? = some a) :
    p a = true ∧ ∃ l1 l2, l = l1 ++ a :: l2 ∧ ∀ e ∈ l2, p e = false := by
  induction l with
  | nil => simp at h
  | cons b l ih =>
    by_cases hb : p b
    · rw [List.filter_cons_of_pos hb] at h
      cases hlf : l.filter p with
      | nil =>
        rw [hlf] at h
        simp only [List.getLast?_singleton, Option.some.injEq] at h
        subst h
        refine ⟨hb, [], l, rfl, fun e he => ?_⟩
        have := (List.filter_eq_nil_iff.1 hlf) e he
        exact Bool.not_eq_true _ ▸ this
      | cons c cs =>
        rw [hlf, List.getLast?_cons_cons, ← hlf] at h
        obtain ⟨hpa, l1, l2, rfl, hl2⟩ := ih h
        exact ⟨hpa, b :: l1, l2, rfl, hl2⟩
    · rw [List.filter_cons_of_neg (by simpa using hb)] at h
      obtain ⟨hpa, l1, l2, rfl, hl2⟩ := ih h
      exact ⟨hpa, b :: l1, l2, rfl, hl2⟩

/-- C3: the navigation start chosen by a successful `compute_` is the last
frame event that is a `navigationStart` whose associated URL, when present
(truthy), matches an accepted scheme — an event with no URL counts as
accepted (first conjunct characterises the acceptance test in those
claim-level terms); the chosen event is accepted and every frame event
after it is not accepted, so the policy is last-accepted rather than
last-overall. -/
theorem c3_navStart_selection (resolve : List TraceEvent → Option (TraceEvent × String))
    (trace : List TraceEvent) (r : TraceOfTab) (se : TraceEvent) (fid : String)
    (h : compute_ resolve trace = Except.ok r)
    (hres : resolve (keyEvents trace) = some (se, fid)) :
    (∀ e, isNavigationStartOfInterest e = true ↔
        (e.name = "navigationStart" ∧
          ∀ url, navStartDocURL e = some url → acceptableNavigationUrlTest url = true)) ∧
      isNavigationStartOfInterest r.navigationStartEvt = true ∧
      ∃ l1 l2, frameEvents trace fid = l1 ++ r.navigationStartEvt :: l2 ∧
        ∀ e ∈ l2, isNavigationStartOfInterest e = false := by
  obtain ⟨se2, fid2, nav, fcp, te, hres2, hnav, hfcp, hte, rfl⟩ := (compute_ok_iff _ _ _).1 h
  rw [hres] at hres2
  simp only [Option.some.injEq, Prod.mk.injEq] at hres2
  obtain ⟨rfl, rfl⟩ := hres2
  rw [buildResult_navigationStartEvt]
  unfold findNavStart at hnav
  obtain ⟨hpa, l1, l2, heq, hl2⟩ := getLast?_filter_split hnav
  exact ⟨fun e => isNavigationStartOfInterest_iff e, hpa, l1, l2, heq, hl2⟩

/-- C4: given a successful frame resolution, `compute_` fails with
`NO_NAVSTART` exactly when no frame event passes the navigation-start
interest test, fails with `NO_FCP` exactly when a navigation start was
selected but no `firstContentfulPaint` frame event has a timestamp strictly
after it, and these are the only fatal outcomes — otherwise a full result
is returned (the `Except` model returns no partial result on error). -/
theorem c4_fatal_errors (resolve : List TraceEvent → Option (TraceEvent × String))
    (trace : List TraceEvent) (se : TraceEvent) (fid : String)
    (hres : resolve (keyEvents trace) = some (se, fid)) :
    (compute_ resolve trace = Except.error ComputeError.NO_NAVSTART ↔
        ∀ e ∈ frameEvents trace fid, isNavigationStartOfInterest e = false) ∧
      (compute_ resolve trace = Except.error ComputeError.NO_FCP ↔
        ∃ nav, findNavStart trace fid = some nav ∧
          ∀ e ∈ frameEvents trace fid,
            ¬(e.name = "firstContentfulPaint" ∧ nav.ts < e.ts)) ∧
      ((∃ r, compute_ resolve trace = Except.ok r) ∨
        compute_ resolve trace = Except.error ComputeError.NO_NAVSTART ∨
        compute_ resolve trace = Except.error ComputeError.NO_FCP) := by
  refine ⟨?_, ?_, compute_trichotomy resolve trace se fid hres⟩
  · rw [compute_navstart_error_iff resolve trace se fid hres]
    unfold findNavStart
    rw [List.getLast?_eq_none_iff, List.filter_eq_nil_iff]
    simp only [Bool.not_eq_true]
  · rw [compute_fcp_error_iff resolve trace se fid hres]
    unfold findAfterNav
    simp only [List.find?_eq_none, Bool.and_eq_true, beq_iff_eq, decide_eq_true_eq, not_and]

/-! ### Concrete traces for counterexamples and witnesses -/

/-- A frame event of the tracked frame `F` with the given name and
timestamp, in a key-event category. -/
def mkEvt (nm : String) (t : Int) : TraceEvent :=
  { name := nm, cat := "blink.user_timing", ts := t, dur := none, pid := 1, tid := 2,
    args := { frame := some "F", data := none } }

/-- A concrete stand-in for the opaque frame resolver: report the given
start event and the frame id `F`. -/
def stubResolve (se : TraceEvent) : List TraceEvent → Option (TraceEvent × String) :=
  fun _ => some (se, "F")

def defaultEvt : TraceEvent :=
  { name := "", cat := "", ts := 0, dur := none, pid := 0, tid := 0,
    args := { frame := none, data := none } }

def defaultResult : TraceOfTab :=
  buildResult [] defaultEvt "" defaultEvt defaultEvt defaultEvt

/-- Extract the result of a successful computation (with an arbitrary
default on the error side, used only to form concrete witnesses). -/
def getOk (x : Except ComputeError TraceOfTab) : TraceOfTab :=
  match x with
  | Except.ok r => r
  | Except.error _ => defaultResult

def c1Trace : List TraceEvent :=
  [mkEvt "navigationStart" 1000, mkEvt "firstMeaningfulPaint" 1500,
    mkEvt "firstContentfulPaint" 2500]

def c1Result : TraceOfTab :=
  getOk (compute_ (stubResolve (mkEvt "navigationStart" 1000)) c1Trace)

/-- C1 counterexample: a successfully computed trace whose (directly found,
`fmpFellBack = false`) first-meaningful-paint timing `1/2` is strictly
below the first-contentful-paint timing `3/2`, refuting
`timings.firstContentfulPaint ≤ timings.firstMeaningfulPaint`. -/
theorem c1_counterexample :
    (compute_ (stubResolve (mkEvt "navigationStart" 1000)) c1Trace).toOption.map
        (fun r => (r.timings.firstContentfulPaint, r.timings.firstMeaningfulPaint,
          r.fmpFellBack)) =
      some (getTiming 1000 2500, some (getTiming 1000 1500), false) ∧
      getTiming 1000 2500 = 3 / 2 ∧ getTiming 1000 1500 = 1 / 2 ∧
      ¬((3 / 2 : ℚ) ≤ (1 / 2 : ℚ)) := by
  refine ⟨rfl, by norm_num [getTiming], by norm_num [getTiming], by norm_num⟩

theorem c1_markers_after_navStart_witness :
    c1Result.timings.navigationStart = 0 ∧
      0 < c1Result.timings.firstContentfulPaint ∧ 0 < getTiming 1000 1500 := by
  have X := c1_markers_after_navStart (stubResolve (mkEvt "navigationStart" 1000)) c1Trace
    c1Result rfl
  exact ⟨X.1, X.2.1, X.2.2 (by decide) (getTiming 1000 1500) rfl⟩

def c2LongEvt : TraceEvent :=
  { name := "firstContentfulPaint", cat := "blink.user_timing", ts := 10, dur := some 100,
    pid := 1, tid := 2, args := { frame := some "F", data := none } }

def c2Trace : List TraceEvent :=
  [mkEvt "navigationStart" 0, c2LongEvt, mkEvt "extraEvent" 20]

def c2Result : TraceOfTab :=
  getOk (compute_ (stubResolve (mkEvt "navigationStart" 0)) c2Trace)

/-- C2 counterexample: a successfully computed trace containing an event
with `ts + dur = 110`, while the returned `timestamps.traceEnd` is `20` —
the duration of the maximal-timestamp event (here absent, counted `0`), not
the maximum of `ts + dur` over all events. -/
theorem c2_counterexample :
    (compute_ (stubResolve (mkEvt "navigationStart" 0)) c2Trace).toOption.map
        (fun r => r.timestamps.traceEnd) = some 20 ∧
      c2LongEvt ∈ c2Trace ∧ c2LongEvt.ts + c2LongEvt.dur.getD 0 = 110 ∧
      ¬((110 : Int) ≤ 20) := by
  refine ⟨by decide, by decide, by decide, by decide⟩

theorem c2_traceEnd_amended_witness :
    reduceMaxTs c2Trace = some (mkEvt "extraEvent" 20) ∧
      c2Result.timestamps.traceEnd =
        (mkEvt "extraEvent" 20).ts + (mkEvt "extraEvent" 20).dur.getD 0 := by
  obtain ⟨te, hte, hmem, hb, hend⟩ :=
    c2_traceEnd_amended (stubResolve (mkEvt "navigationStart" 0)) c2Trace c2Result rfl
  have h2 : reduceMaxTs c2Trace = some (mkEvt "extraEvent" 20) := by decide
  obtain rfl := Option.some.inj (h2.symm.trans hte)
  exact ⟨h2, hend⟩

def c3AccNav : TraceEvent :=
  { name := "navigationStart", cat := "blink.user_timing", ts := 100, dur := none,
    pid := 1, tid := 2,
    args := { frame := some "F",
              data := some { documentLoaderURL := some "https://example.com/" } } }

def c3RejNav : TraceEvent :=
  { name := "navigationStart", cat := "blink.user_timing", ts := 300, dur := none,
    pid := 1, tid := 2,
    args := { frame := some "F",
              data := some { documentLoaderURL := some "about:blank" } } }

def c3Trace : List TraceEvent :=
  [c3AccNav, c3RejNav, mkEvt "firstContentfulPaint" 200]

def c3Result : TraceOfTab := getOk (compute_ (stubResolve c3AccNav) c3Trace)

theorem c3_navStart_selection_witness :
    c3Result.navigationStartEvt = c3AccNav ∧
      isNavigationStartOfInterest c3Result.navigationStartEvt = true ∧
      isNavigationStartOfInterest c3RejNav = false ∧
      frameEvents c3Trace "F" =
        [c3AccNav, mkEvt "firstContentfulPaint" 200, c3RejNav] := by
  have X := c3_navStart_selection (stubResolve c3AccNav) c3Trace c3Result c3AccNav "F" rfl rfl
  exact ⟨by decide, X.2.1, by decide, by decide⟩

def c4Trace : List TraceEvent := [mkEvt "someEvent" 10]

theorem c4_fatal_errors_witness :
    compute_ (stubResolve (mkEvt "someEvent" 10)) c4Trace =
      Except.error ComputeError.NO_NAVSTART := by
  have X := c4_fatal_errors (stubResolve (mkEvt "someEvent" 10)) c4Trace
    (mkEvt "someEvent" 10) "F" rfl
  exact X.1.mpr (by decide)

def c5Trace : List TraceEvent :=
  [mkEvt "navigationStart" 0, mkEvt "firstContentfulPaint" 10]

def c5Result : TraceOfTab :=
  getOk (compute_ (stubResolve (mkEvt "navigationStart" 0)) c5Trace)

theorem c5_fmp_fallback_witness :
    c5Result.fmpFellBack = true ∧
      c5Result.firstMeaningfulPaintEvt =
        ((frameEvents c5Trace "F").filter
          (fun e => e.name == "firstMeaningfulPaintCandidate")).getLast? ∧
      c5Result.firstMeaningfulPaintEvt = none := by
  have X := (c5_fmp_fallback (stubResolve (mkEvt "navigationStart" 0)) c5Trace c5Result
    (mkEvt "navigationStart" 0) "F" rfl rfl).1 (by decide)
  exact ⟨X.1, X.2, by decide⟩

def c6Trace : List TraceEvent :=
  [mkEvt "navigationStart" 1000, mkEvt "firstContentfulPaint" 2500]

def c6Result : TraceOfTab :=
  getOk (compute_ (stubResolve (mkEvt "navigationStart" 1000)) c6Trace)

theorem c6_timing_projection_witness :
    c6Result.timings.navigationStart = 0 ∧
      c6Result.timings.firstContentfulPaint =
        ((c6Result.timestamps.firstContentfulPaint -
          c6Result.timestamps.navigationStart : Int) : ℚ) / 1000 ∧
      c6Result.timestamps.navigationStart = 1000 ∧
      c6Result.timestamps.firstContentfulPaint = 2500 ∧
      c6Result.timings.firstContentfulPaint = 3 / 2 := by
  have X := c6_timing_projection (stubResolve (mkEvt "navigationStart" 1000)) c6Trace
    c6Result rfl
  refine ⟨X.1, X.2.1, by decide, by decide, ?_⟩
  have h : c6Result.timings.firstContentfulPaint = getTiming 1000 2500 := rfl
  rw [h]
  norm_num [getTiming]

def c8Other : TraceEvent :=
  { name := "otherProcessEvent", cat := "toplevel", ts := 50, dur := none, pid := 9, tid := 9,
    args := { frame := none, data := none } }

def c8Trace : List TraceEvent :=
  [mkEvt "navigationStart" 0, c8Other, mkEvt "firstContentfulPaint" 10]

def c8Result : TraceOfTab :=
  getOk (compute_ (stubResolve (mkEvt "navigationStart" 0)) c8Trace)

theorem c8_process_scoping_witness :
    c8Result.processEvents.Perm
        (c8Trace.filter (fun e => e.pid == c8Result.startedInPageEvt.pid)) ∧
      c8Result.mainThreadEvents =
        c8Result.processEvents.filter (fun e => e.tid == c8Result.startedInPageEvt.tid) ∧
      c8Result.processEvents =
        [mkEvt "navigationStart" 0, mkEvt "firstContentfulPaint" 10] := by
  have X := c8_process_scoping (stubResolve (mkEvt "navigationStart" 0)) c8Trace c8Result rfl
  exact ⟨X.1, X.2.1, by decide⟩

def c9Trace : List TraceEvent :=
  [mkEvt "navigationStart" 5, mkEvt "firstContentfulPaint" 7]

theorem c9_traceEnd_reduction_safe_witness :
    (reduceMaxTs c9Trace).isSome = true ∧
      compute_ (stubResolve (mkEvt "navigationStart" 5)) c9Trace ≠
        Except.error ComputeError.reduceOfEmpty := by
  have X := c9_traceEnd_reduction_safe c9Trace "F" (mkEvt "navigationStart" 5) (by decide)
  exact ⟨X.2.1, X.2.2 (stubResolve (mkEvt "navigationStart" 5))⟩

def c10Trace : List TraceEvent :=
  [mkEvt "navigationStart" 0, mkEvt "firstContentfulPaint" 5, mkEvt "commitLoad" 5]

def c10Result : TraceOfTab :=
  getOk (compute_ (stubResolve (mkEvt "navigationStart" 0)) c10Trace)

theorem c10_mainThreadEvents_sorted_stable_witness :
    c10Result.mainThreadEvents.Pairwise (fun a b => a.ts ≤ b.ts) ∧
      c10Result.mainThreadEvents.filter (fun e => decide (e.ts = 5)) =
        ((c10Trace.filter (fun e => e.pid == c10Result.startedInPageEvt.pid)).filter
          (fun e => e.tid == c10Result.startedInPageEvt.tid)).filter
            (fun e => decide (e.ts = 5)) := by
  have X := c10_mainThreadEvents_sorted_stable (stubResolve (mkEvt "navigationStart" 0))
    c10Trace c10Result rfl
  exact ⟨X.1, X.2 5⟩
